import Mathlib

/-!
# Visual Product Matcher — verification of the similarity-search core and frontend

Shallow embedding of the repository.  The React frontend (`App.tsx`) is
modelled directly from its source.  The backend core (EmbeddingStore,
SimilarityRanker, QueryService) is described by the design document but its
code is not part of this repository snapshot, so those components are
modelled from the specification text, as noted on each definition.
-/

set_option maxHeartbeats 1000000

/-- Product metadata, from the data model (`id`, `name`, `category`,
`image_path`), matching the `Product` interface in `App.tsx`. -/
structure Product where
  id : String
  name : String
  category : String
  image_path : String
deriving DecidableEq, Repr

/-- An embedding vector: a sequence of real numbers (the float vectors of the
implementation are idealised as reals). -/
abbrev EmbeddingVector := List ℝ

/-- A catalog entry pairs a product with its embedding vector. -/
structure CatalogEntry where
  product : Product
  vector : EmbeddingVector

/-- A search result pairs a product with a similarity score, matching the
`SearchResult` interface in `App.tsx`. -/
structure SearchResult where
  product : Product
  similarity : ℝ

/-- The error kinds of the core, from the error handling design. -/
inductive CoreError
  | invalidImage
  | encoding
  | cacheCorrupt
  | emptyCatalog
deriving DecidableEq, Repr

namespace SimilarityRanker

/-- Modelled from the spec: dot product of two vectors (componentwise product
summed over the common length). -/
def dot (a b : EmbeddingVector) : ℝ :=
  (List.zipWith (fun x y => x * y) a b).sum

/-- Modelled from the spec: the L2 norm of a vector. -/
noncomputable def norm2 (a : EmbeddingVector) : ℝ :=
  Real.sqrt (dot a a)

/-- Modelled from the spec: cosine similarity — dot product divided by the
product of the L2 norms, defined to be `0` when either vector has zero
norm, to keep the function total. -/
noncomputable def sim (a b : EmbeddingVector) : ℝ :=
  if norm2 a = 0 ∨ norm2 b = 0 then 0 else dot a b / (norm2 a * norm2 b)

theorem dot_nil (b : EmbeddingVector) : dot [] b = 0 := rfl

theorem dot_cons (x y : ℝ) (a b : EmbeddingVector) :
    dot (x :: a) (y :: b) = x * y + dot a b := by
  simp [dot]

theorem dot_comm : ∀ a b : EmbeddingVector, dot a b = dot b a
  | [], [] => rfl
  | [], _ :: _ => rfl
  | _ :: _, [] => rfl
  | x :: a, y :: b => by
      rw [dot_cons, dot_cons, dot_comm a b, mul_comm]

theorem dot_self_nonneg : ∀ a : EmbeddingVector, 0 ≤ dot a a
  | [] => le_refl 0
  | x :: a => by
      rw [dot_cons]
      have h1 : 0 ≤ x * x := mul_self_nonneg x
      have h2 : 0 ≤ dot a a := dot_self_nonneg a
      linarith

theorem two_mul_le_add_of_sq_le_mul (p q r : ℝ) (hp : 0 ≤ p) (hq : 0 ≤ q)
    (h : r ^ 2 ≤ p * q) : 2 * r ≤ p + q := by
  have h1 : r ≤ Real.sqrt (p * q) := by
    rcases le_total r 0 with hr | hr
    · exact hr.trans (Real.sqrt_nonneg _)
    · calc r = Real.sqrt (r ^ 2) := by rw [Real.sqrt_sq hr]
        _ ≤ Real.sqrt (p * q) := Real.sqrt_le_sqrt h
  have h2 : Real.sqrt (p * q) = Real.sqrt p * Real.sqrt q := Real.sqrt_mul hp q
  have h3 : 2 * (Real.sqrt p * Real.sqrt q) ≤ p + q := by
    nlinarith [sq_nonneg (Real.sqrt p - Real.sqrt q), Real.sq_sqrt hp, Real.sq_sqrt hq]
  linarith

/-- Cauchy–Schwarz for list dot products, squared form. -/
theorem dot_sq_le : ∀ a b : EmbeddingVector, (dot a b) ^ 2 ≤ dot a a * dot b b
  | [], b => by
      simp [dot]
  | _ :: _, [] => by
      simp [dot, mul_comm]
  | x :: a, y :: b => by
      have IH := dot_sq_le a b
      have hA := dot_self_nonneg a
      have hB := dot_self_nonneg b
      rw [dot_cons, dot_cons, dot_cons]
      have hr : (x * y * dot a b) ^ 2 ≤ (x ^ 2 * dot b b) * (y ^ 2 * dot a a) := by
        have h1 : (x * y * dot a b) ^ 2 = (x * y) ^ 2 * (dot a b) ^ 2 := by ring
        have h2 : (x * y) ^ 2 * (dot a b) ^ 2 ≤ (x * y) ^ 2 * (dot a a * dot b b) :=
          mul_le_mul_of_nonneg_left IH (sq_nonneg _)
        have h3 : (x ^ 2 * dot b b) * (y ^ 2 * dot a a) =
            (x * y) ^ 2 * (dot a a * dot b b) := by ring
        rw [h1, h3]
        exact h2
      have key : 2 * (x * y * dot a b) ≤ x ^ 2 * dot b b + y ^ 2 * dot a a :=
        two_mul_le_add_of_sq_le_mul _ _ _
          (mul_nonneg (sq_nonneg x) hB) (mul_nonneg (sq_nonneg y) hA) hr
      nlinarith [IH, key]

theorem norm2_nonneg (a : EmbeddingVector) : 0 ≤ norm2 a :=
  Real.sqrt_nonneg _

theorem abs_dot_le (a b : EmbeddingVector) : |dot a b| ≤ norm2 a * norm2 b := by
  have h := dot_sq_le a b
  calc |dot a b| = Real.sqrt ((dot a b) ^ 2) := (Real.sqrt_sq_eq_abs _).symm
    _ ≤ Real.sqrt (dot a a * dot b b) := Real.sqrt_le_sqrt h
    _ = norm2 a * norm2 b := Real.sqrt_mul (dot_self_nonneg a) _

theorem sim_zero_of_degenerate (a b : EmbeddingVector)
    (h : norm2 a = 0 ∨ norm2 b = 0) : sim a b = 0 := by
  rw [sim, if_pos h]

theorem sim_eq_div (a b : EmbeddingVector)
    (h : ¬(norm2 a = 0 ∨ norm2 b = 0)) :
    sim a b = dot a b / (norm2 a * norm2 b) := by
  rw [sim, if_neg h]

theorem abs_sim_le_one (a b : EmbeddingVector) : |sim a b| ≤ 1 := by
  rw [sim]
  split
  · simp
  · rename_i h
    push_neg at h
    have ha : 0 < norm2 a := lt_of_le_of_ne (norm2_nonneg a) (Ne.symm h.1)
    have hb : 0 < norm2 b := lt_of_le_of_ne (norm2_nonneg b) (Ne.symm h.2)
    have hpos : 0 < norm2 a * norm2 b := mul_pos ha hb
    rw [abs_div, abs_of_pos hpos, div_le_one hpos]
    exact abs_dot_le a b

theorem sim_comm (a b : EmbeddingVector) : sim a b = sim b a := by
  rw [sim, sim]
  exact if_congr or_comm rfl (by rw [dot_comm, mul_comm])

theorem sim_self (a : EmbeddingVector) (h : dot a a ≠ 0) : sim a a = 1 := by
  have hpos : 0 < dot a a := lt_of_le_of_ne (dot_self_nonneg a) (Ne.symm h)
  have hn : norm2 a ≠ 0 := by
    rw [norm2]
    exact ne_of_gt (Real.sqrt_pos.mpr hpos)
  rw [sim, if_neg (by push_neg; exact ⟨hn, hn⟩), norm2,
    Real.mul_self_sqrt (dot_self_nonneg a)]
  exact div_self h

/-- Modelled from the spec: the ordering used by the ranker on scored,
index-tagged entries — strictly descending by similarity score, with exact
ties broken by the original insertion index in the catalog (smaller index first),
making the sort stable and deterministic. -/
def rankRel (a b : SearchResult × ℕ) : Prop :=
  b.1.similarity < a.1.similarity ∨
    (a.1.similarity = b.1.similarity ∧ a.2 ≤ b.2)

/-- The strict version of `rankRel` (ties forced apart by distinct indices). -/
def rankRelStrict (a b : SearchResult × ℕ) : Prop :=
  b.1.similarity < a.1.similarity ∨
    (a.1.similarity = b.1.similarity ∧ a.2 < b.2)

noncomputable instance : DecidableRel rankRel := fun a b => by
  unfold rankRel
  infer_instance

instance : IsTotal (SearchResult × ℕ) rankRel where
  total a b := by
    rcases lt_trichotomy a.1.similarity b.1.similarity with h | h | h
    · exact Or.inr (Or.inl h)
    · rcases le_total a.2 b.2 with h2 | h2
      · exact Or.inl (Or.inr ⟨h, h2⟩)
      · exact Or.inr (Or.inr ⟨h.symm, h2⟩)
    · exact Or.inl (Or.inl h)

instance : IsTrans (SearchResult × ℕ) rankRel where
  trans a b c hab hbc := by
    rcases hab with h1 | ⟨e1, i1⟩
    · rcases hbc with h2 | ⟨e2, _⟩
      · exact Or.inl (lt_trans h2 h1)
      · exact Or.inl (e2 ▸ h1)
    · rcases hbc with h2 | ⟨e2, i2⟩
      · exact Or.inl (e1 ▸ h2)
      · exact Or.inr ⟨e1.trans e2, le_trans i1 i2⟩

/-- Modelled from the spec: score every catalog entry against the query with
cosine similarity, tagging each with its original insertion index. -/
noncomputable def scoredIdx (query : EmbeddingVector) (entries : List CatalogEntry) :
    List (SearchResult × ℕ) :=
  entries.enum.map fun p => (⟨p.2.product, sim query p.2.vector⟩, p.1)

/-- Modelled from the spec: the ranked, index-tagged top-K — a stable sort of
the scored entries, strictly descending by score with ties broken by insertion
order, truncated to `k`. -/
noncomputable def rankIdx (query : EmbeddingVector) (entries : List CatalogEntry)
    (k : ℕ) : List (SearchResult × ℕ) :=
  (List.insertionSort rankRel (scoredIdx query entries)).take k

/-- Modelled from the spec:
`rank(query, entries, k) -> ordered sequence of SearchResult`. -/
noncomputable def rank (query : EmbeddingVector) (entries : List CatalogEntry)
    (k : ℕ) : List SearchResult :=
  (rankIdx query entries k).map Prod.fst

/-- All catalog entries scored against the query, in catalog order (the full,
untruncated and unsorted result set). -/
noncomputable def scoreAll (query : EmbeddingVector) (entries : List CatalogEntry) :
    List SearchResult :=
  entries.map fun e => ⟨e.product, sim query e.vector⟩

theorem scoredIdx_map_snd (query : EmbeddingVector) (entries : List CatalogEntry) :
    (scoredIdx query entries).map Prod.snd = List.range entries.length := by
  simp [scoredIdx, List.map_map, Function.comp_def]

theorem enum_map_snd_fun {α β : Type} (f : α → β) (l : List α) :
    l.enum.map (fun p => f p.2) = l.map f := by
  have h := congrArg (List.map f) (List.enum_map_snd l)
  rw [List.map_map] at h
  simpa [Function.comp_def] using h

theorem scoredIdx_map_fst (query : EmbeddingVector) (entries : List CatalogEntry) :
    (scoredIdx query entries).map Prod.fst = scoreAll query entries := by
  simp only [scoredIdx, scoreAll, List.map_map, Function.comp_def]
  exact enum_map_snd_fun (fun e => (⟨e.product, sim query e.vector⟩ : SearchResult)) entries

/-- The sorted (untruncated) scored list is pairwise in the strict ranking
order: indices in it are pairwise distinct, so `rankRel` sharpens. -/
theorem sorted_scoredIdx_strict (query : EmbeddingVector) (entries : List CatalogEntry) :
    List.Pairwise rankRelStrict
      (List.insertionSort rankRel (scoredIdx query entries)) := by
  have hsorted : List.Pairwise rankRel
      (List.insertionSort rankRel (scoredIdx query entries)) :=
    List.sorted_insertionSort rankRel (scoredIdx query entries)
  have hperm := List.perm_insertionSort rankRel (scoredIdx query entries)
  have hnodup : ((List.insertionSort rankRel (scoredIdx query entries)).map Prod.snd).Nodup := by
    have h1 : ((scoredIdx query entries).map Prod.snd).Nodup := by
      rw [scoredIdx_map_snd]
      exact List.nodup_range _
    exact ((hperm.map Prod.snd).nodup_iff).mpr h1
  have hne : List.Pairwise (fun a b : SearchResult × ℕ => a.2 ≠ b.2)
      (List.insertionSort rankRel (scoredIdx query entries)) :=
    (List.pairwise_map).mp hnodup
  refine (hsorted.and hne).imp ?_
  rintro a b ⟨hab, hne2⟩
  rcases hab with h | ⟨he, hle⟩
  · exact Or.inl h
  · exact Or.inr ⟨he, lt_of_le_of_ne hle hne2⟩

theorem rankRelStrict_imp_le {a b : SearchResult × ℕ} (h : rankRelStrict a b) :
    b.1.similarity ≤ a.1.similarity := by
  rcases h with h | ⟨he, _⟩
  · exact le_of_lt h
  · exact le_of_eq he.symm

theorem head_max_of_pairwise {α : Type} (f : α → ℝ) (l : List α)
    (h : List.Pairwise (fun r s => f s ≤ f r) l) :
    ∀ x ∈ l.head?, ∀ r ∈ l, f r ≤ f x := by
  cases l with
  | nil =>
      intro x hx
      simp at hx
  | cons a t =>
      intro x hx r hr
      simp only [List.head?, Option.mem_def, Option.some.injEq] at hx
      subst hx
      rcases List.mem_cons.mp hr with h1 | h1
      · exact h1 ▸ le_refl _
      · exact (List.pairwise_cons.mp h).1 r h1

theorem length_sorted_scoredIdx (query : EmbeddingVector) (entries : List CatalogEntry) :
    (List.insertionSort rankRel (scoredIdx query entries)).length = entries.length := by
  rw [(List.perm_insertionSort rankRel (scoredIdx query entries)).length_eq]
  simp [scoredIdx]

end SimilarityRanker

namespace SimilarityRanker

/-- C1: For every query vector, every sequence of catalog entries, and every
k, the output of `SimilarityRanker.rank` is sorted strictly descending by
similarity score, with exact ties broken stably by the original insertion
order in the catalog (first-built entries rank earlier among exact ties), so the
result is deterministic for deterministic inputs and the first element is the
closest match. -/
theorem rank_sorted_strict_stable (query : EmbeddingVector)
    (entries : List CatalogEntry) (k : ℕ) :
    List.Pairwise rankRelStrict (rankIdx query entries k)
    ∧ rank query entries k = (rankIdx query entries k).map Prod.fst
    ∧ List.Pairwise (fun r s : SearchResult => s.similarity ≤ r.similarity)
        (rank query entries k)
    ∧ ∀ x ∈ (rank query entries k).head?, ∀ r ∈ rank query entries k,
        r.similarity ≤ x.similarity := by
  have hstrict : List.Pairwise rankRelStrict (rankIdx query entries k) :=
    (sorted_scoredIdx_strict query entries).sublist (List.take_sublist k _)
  have hdesc : List.Pairwise (fun r s : SearchResult => s.similarity ≤ r.similarity)
      (rank query entries k) := by
    rw [rank, List.pairwise_map]
    exact hstrict.imp fun h => rankRelStrict_imp_le h
  exact ⟨hstrict, rfl, hdesc, head_max_of_pairwise SearchResult.similarity _ hdesc⟩

/-- C2: rank with k at least the catalog size returns all entries (as a
permutation of the full scored catalog, no error); rank on an empty catalog
returns the empty sequence; rank with k = 0 returns the empty sequence, all
without error. -/
theorem rank_boundary (query : EmbeddingVector) (entries : List CatalogEntry)
    (k : ℕ) :
    (entries.length ≤ k → (rank query entries k).Perm (scoreAll query entries))
    ∧ rank query ([] : List CatalogEntry) k = []
    ∧ rank query entries 0 = [] := by
  refine ⟨?_, by simp [rank, rankIdx, scoredIdx], by simp [rank, rankIdx]⟩
  intro hk
  have htake : (List.insertionSort rankRel (scoredIdx query entries)).take k
      = List.insertionSort rankRel (scoredIdx query entries) :=
    List.take_of_length_le (by rw [length_sorted_scoredIdx]; exact hk)
  rw [rank, rankIdx, htake]
  have h := (List.perm_insertionSort rankRel (scoredIdx query entries)).map Prod.fst
  rw [scoredIdx_map_fst] at h
  exact h

/-- C3: cosine similarity is total: it equals the dot product divided by the
product of the L2 norms, except that it is 0 when either vector has zero
norm; its value always lies in [-1, 1] (in this real-valued model no NaN can
arise). -/
theorem sim_total_bounded (a b : EmbeddingVector) :
    (norm2 a = 0 ∨ norm2 b = 0 → sim a b = 0)
    ∧ (¬(norm2 a = 0 ∨ norm2 b = 0) → sim a b = dot a b / (norm2 a * norm2 b))
    ∧ -1 ≤ sim a b ∧ sim a b ≤ 1 := by
  have h := abs_le.mp (abs_sim_le_one a b)
  exact ⟨sim_zero_of_degenerate a b, sim_eq_div a b, h.1, h.2⟩

/-- C4: cosine similarity is symmetric; a vector with nonzero norm has
self-similarity exactly 1; hence querying with a vector that occurs in the
catalog puts a score of exactly 1 at the head of the ranking. -/
theorem sim_symm_self_top :
    (∀ a b : EmbeddingVector, sim a b = sim b a)
    ∧ (∀ a : EmbeddingVector, dot a a ≠ 0 → sim a a = 1)
    ∧ (∀ (a : EmbeddingVector) (entries : List CatalogEntry) (k : ℕ),
        (∃ e ∈ entries, e.vector = a) → dot a a ≠ 0 → 1 ≤ k →
        ∃ x ∈ (rank a entries k).head?, x.similarity = 1) := by
  refine ⟨sim_comm, sim_self, ?_⟩
  intro a entries k hex hdot hk
  obtain ⟨e, he, hv⟩ := hex
  have hperm := List.perm_insertionSort rankRel (scoredIdx a entries)
  have hlen : (List.insertionSort rankRel (scoredIdx a entries)).length = entries.length :=
    length_sorted_scoredIdx a entries
  have hpos : 0 < entries.length := List.length_pos.mpr (List.ne_nil_of_mem he)
  obtain ⟨y, t, hyt⟩ : ∃ y t, List.insertionSort rankRel (scoredIdx a entries) = y :: t := by
    cases hcase : List.insertionSort rankRel (scoredIdx a entries) with
    | nil =>
        rw [hcase] at hlen
        simp at hlen
        omega
    | cons y t => exact ⟨y, t, rfl⟩
  obtain ⟨k1, rfl⟩ : ∃ k1, k = k1 + 1 := by
    cases k with
    | zero => omega
    | succ k1 => exact ⟨k1, rfl⟩
  have hhead : (rank a entries (k1 + 1)).head? = some y.1 := by
    rw [rank, rankIdx, hyt, List.take_succ_cons]
    rfl
  refine ⟨y.1, by rw [hhead]; rfl, ?_⟩
  have hmapfst : (List.insertionSort rankRel (scoredIdx a entries)).map Prod.fst
      = y.1 :: t.map Prod.fst := by
    rw [hyt]
    rfl
  have hpermfst : ((List.insertionSort rankRel (scoredIdx a entries)).map Prod.fst).Perm
      (scoreAll a entries) := by
    have h := hperm.map Prod.fst
    rw [scoredIdx_map_fst] at h
    exact h
  -- the scored entry for `e` appears in the sorted list
  have hse : (⟨e.product, sim a e.vector⟩ : SearchResult) ∈
      (List.insertionSort rankRel (scoredIdx a entries)).map Prod.fst := by
    rw [hpermfst.mem_iff, scoreAll]
    exact List.mem_map_of_mem _ he
  -- the head dominates every member of the sorted list
  have hdesc : List.Pairwise (fun r s : SearchResult => s.similarity ≤ r.similarity)
      ((List.insertionSort rankRel (scoredIdx a entries)).map Prod.fst) := by
    rw [List.pairwise_map]
    exact (sorted_scoredIdx_strict a entries).imp fun h => rankRelStrict_imp_le h
  have hge : sim a e.vector ≤ y.1.similarity := by
    have hmax := head_max_of_pairwise SearchResult.similarity _ hdesc
    have hx : y.1 ∈ ((List.insertionSort rankRel (scoredIdx a entries)).map Prod.fst).head? := by
      rw [hmapfst]
      rfl
    exact hmax y.1 hx _ hse
  have hone : sim a e.vector = 1 := by
    rw [hv]
    exact sim_self a hdot
  -- the head itself is one of the scored entries, so its score is at most 1
  have hy_mem : y.1 ∈ scoreAll a entries := by
    rw [← hpermfst.mem_iff, hmapfst]
    exact List.mem_cons_self _ _
  obtain ⟨w, _, hw⟩ := List.mem_map.mp hy_mem
  have hle : y.1.similarity ≤ 1 := by
    rw [← hw]
    exact (abs_le.mp (abs_sim_le_one a w.vector)).2
  rw [hone] at hge
  linarith

end SimilarityRanker

/-- Modelled from the spec: the EmbeddingStore — the mapping of the catalog from
products to catalog entries, immutable once built or loaded. -/
structure Store where
  entries : List CatalogEntry

namespace EmbeddingStore

/-- Modelled from the spec: the persisted cache payload — a versioned
serialization carrying enough self-description (vector dimension, entry
count) for `load` to validate consistency before accepting it. -/
structure RawCache where
  version : ℕ
  dim : ℕ
  count : ℕ
  items : List (Product × EmbeddingVector)

/-- Modelled from the spec: what `load` finds at the cache path — either an
unreadable blob or a structurally readable cache payload. -/
inductive CacheFile
  | unreadable
  | raw (c : RawCache)

/-- The vector dimension recorded by `persist`: the length of the first
vector of the first entry (0 for an empty store). -/
def storeDim (s : Store) : ℕ :=
  (s.entries.head?.map fun e => e.vector.length).getD 0

/-- Modelled from the spec: a store is well-formed when all its vectors share
one length (the invariant on EmbeddingVector in the data model). -/
def Store.uniform (s : Store) : Prop :=
  ∀ e ∈ s.entries, e.vector.length = storeDim s

/-- Modelled from the spec: `persist(cachePath)` serializes the current
mapping (metadata plus vector per entry) with its self-description. -/
def persist (s : Store) : CacheFile :=
  .raw ⟨1, storeDim s, s.entries.length, s.entries.map fun e => (e.product, e.vector)⟩

/-- The consistency check `load` performs before accepting a cache. -/
def cacheConsistent (c : RawCache) : Bool :=
  c.items.length == c.count && c.items.all fun it => it.2.length == c.dim

/-- Modelled from the spec: `load(cachePath) -> Store` deserializes a
previously persisted mapping; fails with `CacheCorruptError` if the format is
unreadable or vector lengths are inconsistent. -/
def load : CacheFile → Except CoreError Store
  | .unreadable => .error .cacheCorrupt
  | .raw c =>
      if cacheConsistent c then .ok ⟨c.items.map fun it => ⟨it.1, it.2⟩⟩
      else .error .cacheCorrupt

/-- Modelled from the spec: the usable entries a build produces — every
catalog image the Encoder can process, in catalog order; entries the Encoder
fails on are skipped. -/
def buildEntries {Img : Type} (encode : Img → Option EmbeddingVector)
    (catalog : List (Product × Img)) : List CatalogEntry :=
  catalog.filterMap fun pi => (encode pi.2).map fun v => ⟨pi.1, v⟩

/-- Modelled from the spec: the warnings a build records — one per skipped
entry (those the Encoder cannot process). -/
def buildWarnings {Img : Type} (encode : Img → Option EmbeddingVector)
    (catalog : List (Product × Img)) : List Product :=
  catalog.filterMap fun pi =>
    match encode pi.2 with
    | none => some pi.1
    | some _ => none

/-- Modelled from the spec: `build(catalogImages) -> Store` — skip entries
the Encoder cannot process and continue, recording a warning; fail the whole
build with `EmptyCatalogError` exactly when zero usable entries result. -/
def build {Img : Type} (encode : Img → Option EmbeddingVector)
    (catalog : List (Product × Img)) : Except CoreError (Store × List Product) :=
  let es := buildEntries encode catalog
  if es.isEmpty then .error .emptyCatalog
  else .ok (⟨es⟩, buildWarnings encode catalog)

theorem length_buildEntries {Img : Type} (encode : Img → Option EmbeddingVector) :
    ∀ catalog : List (Product × Img),
      (buildEntries encode catalog).length =
        (catalog.filter fun pi => (encode pi.2).isSome).length
  | [] => rfl
  | pi :: rest => by
      have IH := length_buildEntries encode rest
      cases henc : encode pi.2 with
      | none =>
          simp [buildEntries, List.filterMap_cons, henc, List.filter_cons] at IH ⊢
          exact IH
      | some v =>
          simp [buildEntries, List.filterMap_cons, henc, List.filter_cons] at IH ⊢
          exact IH

/-- C5: persisting a well-formed store and loading the result reproduces the
same mapping exactly; `load` fails with `CacheCorruptError` on an unreadable
file and on any readable payload whose self-description is inconsistent
(count mismatch or a vector length differing from the declared dimension). -/
theorem persist_load_roundtrip :
    (∀ s : Store, Store.uniform s → load (persist s) = .ok s)
    ∧ load .unreadable = .error .cacheCorrupt
    ∧ ∀ c : RawCache,
        ¬(c.items.length = c.count ∧ ∀ it ∈ c.items, it.2.length = c.dim) →
        load (.raw c) = .error .cacheCorrupt := by
  refine ⟨?_, rfl, ?_⟩
  · intro s hs
    have hcons : cacheConsistent
        ⟨1, storeDim s, s.entries.length, s.entries.map fun e => (e.product, e.vector)⟩
        = true := by
      simp [cacheConsistent, List.all_eq_true]
      exact hs
    have hmap : (s.entries.map fun e => (e.product, e.vector)).map
        (fun it => (⟨it.1, it.2⟩ : CatalogEntry)) = s.entries := by
      rw [List.map_map]
      have hid : ((fun it : Product × EmbeddingVector => (⟨it.1, it.2⟩ : CatalogEntry)) ∘
          fun e : CatalogEntry => (e.product, e.vector)) = id :=
        funext fun e => rfl
      rw [hid, List.map_id]
    simp [persist, load, hcons, hmap]
  · intro c hc
    have hcons : cacheConsistent c = false := by
      cases h : cacheConsistent c with
      | false => rfl
      | true =>
          exfalso
          apply hc
          simpa [cacheConsistent, List.all_eq_true] using h
    simp [load, hcons]

/-- C6: `build` skips every entry the Encoder cannot process (recording a
warning) and keeps all processable entries in catalog order, so its entry
count equals the number of encodable images; it fails with
`EmptyCatalogError` exactly when zero usable entries would result. -/
theorem build_skip_policy {Img : Type} (encode : Img → Option EmbeddingVector)
    (catalog : List (Product × Img)) :
    (build encode catalog = .error .emptyCatalog ↔ buildEntries encode catalog = [])
    ∧ (buildEntries encode catalog ≠ [] →
        build encode catalog =
          .ok (⟨buildEntries encode catalog⟩, buildWarnings encode catalog))
    ∧ (∀ p : Product, ∀ img : Img, (p, img) ∈ catalog → encode img = none →
        p ∈ buildWarnings encode catalog)
    ∧ (buildEntries encode catalog).length =
        (catalog.filter fun pi => (encode pi.2).isSome).length := by
  refine ⟨?_, ?_, ?_, length_buildEntries encode catalog⟩
  · cases hcat : buildEntries encode catalog with
    | nil => simp [build, hcat]
    | cons e es => simp [build, hcat]
  · intro hne
    cases hcat : buildEntries encode catalog with
    | nil => exact absurd hcat hne
    | cons e es =>
        rw [← hcat]
        simp [build, hcat]
  · intro p img hmem henc
    rw [buildWarnings]
    apply List.mem_filterMap.mpr
    exact ⟨(p, img), hmem, by simp [henc]⟩

end EmbeddingStore

namespace QueryService

/-- Modelled from the spec: one search request, instrumented with the number
of Encoder invocations it performs.  `decode` is the image validation step
(`none` when the bytes do not decode as a supported image); `encode` is the
opaque Encoder capability (`none` when the Encoder itself fails). -/
noncomputable def searchWithCalls {Bytes Img : Type}
    (decode : Bytes → Option Img) (encode : Img → Option EmbeddingVector)
    (store : Store) (k : ℕ) (bytes : Bytes) :
    Except CoreError (List SearchResult) × ℕ :=
  match decode bytes with
  | none => (.error .invalidImage, 0)
  | some img =>
      match encode img with
      | none => (.error .encoding, 1)
      | some q => (.ok (SimilarityRanker.rank q store.entries k), 1)

/-- Modelled from the spec:
`search(imageBytes, k) -> ordered sequence of SearchResult`. -/
noncomputable def search {Bytes Img : Type}
    (decode : Bytes → Option Img) (encode : Img → Option EmbeddingVector)
    (store : Store) (k : ℕ) (bytes : Bytes) :
    Except CoreError (List SearchResult) :=
  (searchWithCalls decode encode store k bytes).1

/-- C7: when the bytes do not decode as a supported image, `search` fails
with `InvalidImageError` and performs zero Encoder calls; when the bytes
decode but the Encoder fails on the image, `search` fails with
`EncodingError`, propagated unchanged to the caller. -/
theorem search_error_paths {Bytes Img : Type}
    (decode : Bytes → Option Img) (encode : Img → Option EmbeddingVector)
    (store : Store) (k : ℕ) (bytes : Bytes) :
    (decode bytes = none →
      searchWithCalls decode encode store k bytes = (.error .invalidImage, 0))
    ∧ ∀ img : Img, decode bytes = some img → encode img = none →
        search decode encode store k bytes = .error .encoding := by
  constructor
  · intro h
    simp [searchWithCalls, h]
  · intro img hdec henc
    simp [search, searchWithCalls, hdec, henc]

end QueryService

/-! ## The presentation layer (`src/frontend/src/App.tsx`), from the source -/

/-- A browser file, as far as `App.tsx` inspects it: its MIME type (the
`file.type` used by `handleDrop`). -/
structure BrowserFile where
  type : String

/-- JavaScript `String.prototype.startsWith`, on the character sequence. -/
def strStartsWith (s p : String) : Bool :=
  p.data.isPrefixOf s.data

/-- The React state of the `App` component: `selectedFile`, `previewUrl`,
`results`, `isLoading`, `error`, `hasSearched` (the modal state does not
affect the claims and is omitted). -/
structure AppState where
  selectedFile : Option BrowserFile
  previewUrl : Option String
  results : List SearchResult
  isLoading : Bool
  error : Option String
  hasSearched : Bool

namespace App

/-- `handleFileChange`: if a file is present, select it, set its preview URL,
clear results and error, and reset `hasSearched`; otherwise do nothing. -/
def handleFileChange (createObjectURL : BrowserFile → String) (s : AppState)
    (files : List BrowserFile) : AppState :=
  match files with
  | [] => s
  | f :: _ =>
      { s with selectedFile := some f, previewUrl := some (createObjectURL f),
               results := [], error := none, hasSearched := false }

/-- `handleDrop`: if a dropped file is present and its MIME type starts with
`image/`, accept it exactly as `handleFileChange` does; otherwise set the
error message and change nothing else. -/
def handleDrop (createObjectURL : BrowserFile → String) (s : AppState)
    (files : List BrowserFile) : AppState :=
  match files with
  | [] => s
  | f :: _ =>
      if strStartsWith f.type "image/" then
        { s with selectedFile := some f, previewUrl := some (createObjectURL f),
                 results := [], error := none, hasSearched := false }
      else
        { s with error := some "Please drop an image file (e.g., jpg, png)." }

/-- The synchronous entry of `handleSearch`: with no selected file it sets the
error message and returns (second component `false`: no HTTP request is
issued); with a file it enters the loading state and issues the request. -/
def handleSearch (s : AppState) : AppState × Bool :=
  match s.selectedFile with
  | none => ({ s with error := some "Please select an image file first." }, false)
  | some _ =>
      ({ s with isLoading := true, error := none, results := [], hasSearched := true },
       true)

/-- The title shown on the result card at a given index:
`index === 0 ? "Your Upload (Best Match)" : result.product.name`. -/
def cardTitle (index : ℕ) (r : SearchResult) : String :=
  if index = 0 then "Your Upload (Best Match)" else r.product.name

/-- The titles of the rendered result cards, in grid order (the JSX
`results.map((result, index) => ...)`). -/
def renderTitles (results : List SearchResult) : List String :=
  results.enum.map fun p => cardTitle p.1 p.2

/-- C8: in the rendered results grid, the card at index 0 carries the label
"Your Upload (Best Match)" in place of the product name, and every card at
a positive index carries the product name; in particular the first card of
a non-empty grid shows the label. -/
theorem renderTitles_spec (results : List SearchResult) (i : ℕ) :
    (renderTitles results)[i]? =
      results[i]?.map (fun r => if i = 0 then "Your Upload (Best Match)" else r.product.name)
    ∧ (results ≠ [] → (renderTitles results).head? = some "Your Upload (Best Match)") := by
  constructor
  · cases h : results[i]? with
    | none => simp [renderTitles, cardTitle, h]
    | some r => simp [renderTitles, cardTitle, h]
  · intro h
    cases results with
    | nil => exact absurd rfl h
    | cons r t => rfl

/-- C9: invoking `handleSearch` with no selected file sets the error message
"Please select an image file first." and issues no HTTP request, leaving
`results`, `previewUrl`, `selectedFile` and `isLoading` unchanged. -/
theorem handleSearch_noFile (s : AppState) (h : s.selectedFile = none) :
    handleSearch s = ({ s with error := some "Please select an image file first." }, false)
    ∧ (handleSearch s).1.results = s.results
    ∧ (handleSearch s).1.previewUrl = s.previewUrl
    ∧ (handleSearch s).1.selectedFile = s.selectedFile
    ∧ (handleSearch s).1.isLoading = s.isLoading := by
  have he : handleSearch s =
      ({ s with error := some "Please select an image file first." }, false) := by
    simp [handleSearch, h]
  refine ⟨he, ?_, ?_, ?_, ?_⟩ <;> rw [he]

/-- C10: accepting a new file (`handleFileChange` with a file present, or
`handleDrop` with a file whose MIME type starts with "image/") resets
`results` to the empty list, `error` to `none` and `hasSearched` to `false`;
`handleDrop` with a non-image file instead sets the error message and leaves
`selectedFile`, `previewUrl`, `results` and `hasSearched` unchanged. -/
theorem newFile_resets (createObjectURL : BrowserFile → String) (s : AppState)
    (f : BrowserFile) (rest : List BrowserFile) :
    ((handleFileChange createObjectURL s (f :: rest)).results = []
      ∧ (handleFileChange createObjectURL s (f :: rest)).error = none
      ∧ (handleFileChange createObjectURL s (f :: rest)).hasSearched = false)
    ∧ (strStartsWith f.type "image/" = true →
        (handleDrop createObjectURL s (f :: rest)).results = []
        ∧ (handleDrop createObjectURL s (f :: rest)).error = none
        ∧ (handleDrop createObjectURL s (f :: rest)).hasSearched = false)
    ∧ (strStartsWith f.type "image/" = false →
        (handleDrop createObjectURL s (f :: rest)).error =
          some "Please drop an image file (e.g., jpg, png)."
        ∧ (handleDrop createObjectURL s (f :: rest)).selectedFile = s.selectedFile
        ∧ (handleDrop createObjectURL s (f :: rest)).previewUrl = s.previewUrl
        ∧ (handleDrop createObjectURL s (f :: rest)).results = s.results
        ∧ (handleDrop createObjectURL s (f :: rest)).hasSearched = s.hasSearched) := by
  refine ⟨by simp [handleFileChange], ?_, ?_⟩
  · intro h
    simp [handleDrop, h]
  · intro h
    simp [handleDrop, h]

end App

/-! ## Concrete sample inputs used by the witness instantiations -/

def sampleProduct : Product := ⟨"p1", "Product One", "shoes", "images/p1.png"⟩

def sampleProduct2 : Product := ⟨"p2", "Product Two", "bags", "images/p2.png"⟩

def sampleProduct3 : Product := ⟨"p3", "Product Three", "hats", "images/p3.png"⟩

def sampleEntry : CatalogEntry := ⟨sampleProduct, [1]⟩

def sampleStore : Store := ⟨[⟨sampleProduct, [1, 0]⟩, ⟨sampleProduct2, [0, 1]⟩]⟩

def encB : Bool → Option EmbeddingVector := fun b => if b then some [1] else none

def catalogB : List (Product × Bool) :=
  [(sampleProduct, true), (sampleProduct2, false), (sampleProduct3, true)]

def decB : Bool → Option Unit := fun b => if b then some () else none

def encU : Unit → Option EmbeddingVector := fun _ => none

def emptyStore : Store := ⟨[]⟩

def initialState : AppState := ⟨none, none, [], false, none, false⟩

def staleState : AppState :=
  ⟨none, none, [⟨sampleProduct, 1⟩], false, some "old failure", true⟩

def imgFile : BrowserFile := ⟨"image/png"⟩

def txtFile : BrowserFile := ⟨"text/plain"⟩

def demoURL : BrowserFile → String := fun _ => "blob:demo"

/-! ## Witness instantiations -/

/-- Witness for C1 at a concrete one-entry catalog. -/
theorem rank_sorted_strict_stable_witness :
    (⟨sampleProduct, SimilarityRanker.sim [1] [1]⟩ : SearchResult).similarity ≤
      (⟨sampleProduct, SimilarityRanker.sim [1] [1]⟩ : SearchResult).similarity := by
  have h := (SimilarityRanker.rank_sorted_strict_stable [1] [sampleEntry] 1).2.2.2
  exact h _ (Option.mem_def.mpr rfl) _ (List.Mem.head _)

/-- Witness for C2 at the empty catalog with k = 0. -/
theorem rank_boundary_witness :
    (SimilarityRanker.rank [] ([] : List CatalogEntry) 0).Perm
      (SimilarityRanker.scoreAll [] []) :=
  (SimilarityRanker.rank_boundary [] [] 0).1 (le_refl 0)

/-- Witness for C3 at concrete degenerate and non-degenerate vectors. -/
theorem sim_total_bounded_witness :
    SimilarityRanker.sim [0] [1] = 0
    ∧ SimilarityRanker.sim [1] [1] =
        SimilarityRanker.dot [1] [1] /
          (SimilarityRanker.norm2 [1] * SimilarityRanker.norm2 [1]) := by
  have hz : SimilarityRanker.norm2 [0] = 0 := by
    simp [SimilarityRanker.norm2, SimilarityRanker.dot]
  have h1 : SimilarityRanker.norm2 [1] = 1 := by
    simp [SimilarityRanker.norm2, SimilarityRanker.dot]
  constructor
  · exact (SimilarityRanker.sim_total_bounded [0] [1]).1 (Or.inl hz)
  · refine (SimilarityRanker.sim_total_bounded [1] [1]).2.1 ?_
    intro hcon
    rcases hcon with hcon | hcon <;> rw [h1] at hcon <;> exact one_ne_zero hcon

/-- Witness for C4: symmetry and self-similarity at concrete vectors, and the
top-of-ranking consequence at a concrete catalog. -/
theorem sim_symm_self_top_witness :
    SimilarityRanker.sim [1] [2] = SimilarityRanker.sim [2] [1]
    ∧ SimilarityRanker.sim [1] [1] = 1
    ∧ (⟨sampleProduct, SimilarityRanker.sim [1] [1]⟩ : SearchResult).similarity = 1 := by
  have hdot : SimilarityRanker.dot [1] [1] ≠ 0 := by
    simp [SimilarityRanker.dot]
  refine ⟨SimilarityRanker.sim_symm_self_top.1 [1] [2],
    SimilarityRanker.sim_symm_self_top.2.1 [1] hdot, ?_⟩
  obtain ⟨x, hx, hs⟩ := SimilarityRanker.sim_symm_self_top.2.2 [1] [sampleEntry] 1
    ⟨sampleEntry, List.Mem.head _, rfl⟩ hdot (le_refl 1)
  have hx2 : (⟨sampleProduct, SimilarityRanker.sim [1] [1]⟩ : SearchResult) = x :=
    Option.some.inj hx
  rw [hx2]
  exact hs

/-- Witness for C5 at a concrete two-entry store and a concrete corrupt
cache whose declared dimension disagrees with its vector. -/
theorem persist_load_roundtrip_witness :
    EmbeddingStore.load (EmbeddingStore.persist sampleStore) = .ok sampleStore
    ∧ EmbeddingStore.load (.raw ⟨1, 3, 1, [(sampleProduct, [1, 0])]⟩) =
        .error .cacheCorrupt := by
  constructor
  · refine EmbeddingStore.persist_load_roundtrip.1 sampleStore ?_
    intro e he
    cases he with
    | head => rfl
    | tail _ h2 =>
        cases h2 with
        | head => rfl
        | tail _ h3 => cases h3
  · refine EmbeddingStore.persist_load_roundtrip.2.2 _ ?_
    rintro ⟨-, h2⟩
    have h3 := h2 (sampleProduct, [1, 0]) (List.Mem.head _)
    have h4 : (2 : ℕ) = 3 := h3
    exact absurd h4 (by decide)

/-- Witness for C6 at a catalog with one corrupt and two valid images. -/
theorem build_skip_policy_witness :
    EmbeddingStore.build encB catalogB =
      .ok (⟨[⟨sampleProduct, [1]⟩, ⟨sampleProduct3, [1]⟩]⟩, [sampleProduct2])
    ∧ sampleProduct2 ∈ EmbeddingStore.buildWarnings encB catalogB
    ∧ (EmbeddingStore.buildEntries encB catalogB).length = 2 := by
  have h := EmbeddingStore.build_skip_policy encB catalogB
  refine ⟨?_, ?_, ?_⟩
  · exact h.2.1 (List.cons_ne_nil _ _)
  · exact h.2.2.1 sampleProduct2 false (List.Mem.tail _ (List.Mem.head _)) rfl
  · exact (h.2.2.2).trans rfl

/-- Witness for C7 at concrete decode and encode capabilities. -/
theorem search_error_paths_witness :
    QueryService.searchWithCalls decB encU emptyStore 5 false = (.error .invalidImage, 0)
    ∧ QueryService.search decB encU emptyStore 5 true = .error .encoding := by
  constructor
  · exact (QueryService.search_error_paths decB encU emptyStore 5 false).1 rfl
  · exact (QueryService.search_error_paths decB encU emptyStore 5 true).2 () rfl rfl

/-- Witness for C8 at a concrete one-element results list. -/
theorem renderTitles_spec_witness :
    (App.renderTitles [⟨sampleProduct, 1⟩]).head? = some "Your Upload (Best Match)" :=
  (App.renderTitles_spec [⟨sampleProduct, 1⟩] 0).2 (List.cons_ne_nil _ _)

/-- Witness for C9 at the initial state, which has no selected file. -/
theorem handleSearch_noFile_witness :
    App.handleSearch initialState =
      (⟨none, none, [], false, some "Please select an image file first.", false⟩, false) :=
  (App.handleSearch_noFile initialState rfl).1

/-- Witness for C10 at a stale state with an image file and a non-image
file. -/
theorem newFile_resets_witness :
    ((App.handleFileChange demoURL staleState [imgFile]).results = []
      ∧ (App.handleFileChange demoURL staleState [imgFile]).error = none
      ∧ (App.handleFileChange demoURL staleState [imgFile]).hasSearched = false)
    ∧ ((App.handleDrop demoURL staleState [imgFile]).results = []
      ∧ (App.handleDrop demoURL staleState [imgFile]).error = none
      ∧ (App.handleDrop demoURL staleState [imgFile]).hasSearched = false)
    ∧ ((App.handleDrop demoURL staleState [txtFile]).error =
          some "Please drop an image file (e.g., jpg, png)."
      ∧ (App.handleDrop demoURL staleState [txtFile]).selectedFile = staleState.selectedFile
      ∧ (App.handleDrop demoURL staleState [txtFile]).previewUrl = staleState.previewUrl
      ∧ (App.handleDrop demoURL staleState [txtFile]).results = staleState.results
      ∧ (App.handleDrop demoURL staleState [txtFile]).hasSearched = staleState.hasSearched) :=
  ⟨(App.newFile_resets demoURL staleState imgFile []).1,
   (App.newFile_resets demoURL staleState imgFile []).2.1 (by decide),
   (App.newFile_resets demoURL staleState txtFile []).2.2 (by decide)⟩
